import Mathlib

/-
Verification development for the 3x3 SVD routine in
crates/kornia-linalg/src/linalg.rs.

The Rust code computes exclusively with 32-bit IEEE-754 floats (f32),
including bit-level tricks (the fast reciprocal square root reads the raw
bit pattern of its argument).  The embedding therefore models f32 values
as their bit patterns (natural numbers below 2^32) and implements the
IEEE-754 binary32 operations (round to nearest, ties to even) exactly,
using integer arithmetic only.  NaN results are canonicalised to the
quiet NaN 0x7fc00000; no operation of the algorithm distinguishes NaN
payloads (comparisons are false on NaN, max drops the NaN operand, and
the reciprocal-square-root iteration maps every NaN input to NaN), so the
canonicalisation does not affect any of the properties proved below.
-/

namespace Kornia

set_option maxRecDepth 10000
set_option maxHeartbeats 16000000

/-- An f32 value, represented by its bit pattern (a natural number below 2^32). -/
abbrev F32 := Nat

def POW23 : Nat := 8388608
def POW24 : Nat := 16777216
def POW31 : Nat := 2147483648
def POW32 : Nat := 4294967296

/-- Classification of an f32 bit pattern: NaN, a signed infinity, or a finite
value with sign `neg` and magnitude `a / b` (with `b` a power of two). -/
inductive FClass where
  | nan : FClass
  | inf : Bool → FClass
  | fin : Bool → Nat → Nat → FClass
deriving DecidableEq

/-- Decode a bit pattern into its IEEE-754 binary32 meaning. -/
def fclassify (x : F32) : FClass :=
  let neg := x / POW31 % 2 == 1
  let e := x / POW23 % 256
  let m := x % POW23
  if e == 255 then (if m == 0 then .inf neg else .nan)
  else if e == 0 then .fin neg m (1 <<< 149)
  else if 150 ≤ e then .fin neg ((POW23 + m) <<< (e - 150)) 1
  else .fin neg (POW23 + m) (1 <<< (150 - e))

/-- The canonical quiet NaN bit pattern. -/
def qNaN : F32 := 0x7fc00000

def fzero (neg : Bool) : F32 := if neg then POW31 else 0

def finfty (neg : Bool) : F32 := (if neg then POW31 else 0) + 255 * POW23

/-- One rung of the binary floor-log2 ladder: if `2^k ≤ n`, shift `n`
down by `k` and add `k` to the accumulator. -/
def log2step (k : Nat) (p : Nat × Nat) : Nat × Nat :=
  if 1 <<< k ≤ p.1 then (p.1 >>> k, p.2 + k) else p

/-- Floor of log2 for numbers below 2^1024 (all numbers arising here),
by binary descent; avoids well-founded recursion so that the kernel can
evaluate it quickly. -/
def flog2 (n : Nat) : Nat :=
  (log2step 1 (log2step 2 (log2step 4 (log2step 8 (log2step 16 (log2step 32
    (log2step 64 (log2step 128 (log2step 256 (log2step 512 (n, 0))))))))))).2

/-- Is `2^e ≤ a / b`? (for positive `a`, `b`). -/
def leP2 (a b : Nat) (e : Int) : Bool :=
  if 0 ≤ e then decide (b <<< e.toNat ≤ a) else decide (b ≤ a <<< (-e).toNat)

/-- Floor of log2 of the positive rational `a / b`. -/
def floorLog2Rat (a b : Nat) : Int :=
  let d : Int := (flog2 a : Int) - (flog2 b : Int)
  if leP2 a b d then d else d - 1

/-- Round a nonnegative quotient `m0` with remainder `r` over divisor `den`
to the nearest integer, ties to even. -/
def roundHalfEven (m0 r den : Nat) : Nat :=
  if den < 2 * r then m0 + 1
  else if 2 * r < den then m0
  else if m0 % 2 == 0 then m0 else m0 + 1

/-- Round the positive rational `a / b` to the nearest f32 (ties to even),
overflowing to infinity, with sign `neg`. -/
def roundPos (a b : Nat) (neg : Bool) : F32 :=
  let e := floorLog2Rat a b
  let sbit := if neg then POW31 else 0
  if -126 ≤ e then
    let p : Int := 23 - e
    let A := if 0 ≤ p then a <<< p.toNat else a
    let B := if 0 ≤ p then b else b <<< (-p).toNat
    let m := roundHalfEven (A / B) (A % B) B
    let m2 := if m == POW24 then POW23 else m
    let e2 := if m == POW24 then e + 1 else e
    if 127 < e2 then finfty neg
    else sbit + (e2 + 127).toNat * POW23 + (m2 - POW23)
  else
    let A := a <<< 149
    let m := roundHalfEven (A / b) (A % b) b
    sbit + m

def sgnInt (neg : Bool) (a : Nat) : Int := if neg then -(a : Int) else (a : Int)

/-- IEEE-754 binary32 addition (round to nearest, ties to even). -/
def fadd (x y : F32) : F32 :=
  match fclassify x, fclassify y with
  | .nan, _ => qNaN
  | _, .nan => qNaN
  | .inf sx, .inf sy => if sx == sy then finfty sx else qNaN
  | .inf sx, .fin _ _ _ => finfty sx
  | .fin _ _ _, .inf sy => finfty sy
  | .fin sx a b, .fin sy c d =>
    let n : Int := sgnInt sx a * (d : Int) + sgnInt sy c * (b : Int)
    if n == 0 then fzero (sx && sy)
    else roundPos n.natAbs (b * d) (decide (n < 0))

/-- Unary negation of an f32: flip the sign bit. -/
def fneg (x : F32) : F32 := x ^^^ POW31

/-- IEEE-754 binary32 subtraction. -/
def fsub (x y : F32) : F32 := fadd x (fneg y)

/-- IEEE-754 binary32 multiplication. -/
def fmul (x y : F32) : F32 :=
  match fclassify x, fclassify y with
  | .nan, _ => qNaN
  | _, .nan => qNaN
  | .inf sx, .inf sy => finfty (sx != sy)
  | .inf sx, .fin sy c _ => if c == 0 then qNaN else finfty (sx != sy)
  | .fin sx a _, .inf sy => if a == 0 then qNaN else finfty (sx != sy)
  | .fin sx a b, .fin sy c d =>
    let neg := sx != sy
    if a == 0 || c == 0 then fzero neg
    else roundPos (a * c) (b * d) neg

/-- IEEE-754 binary32 division. -/
def f32div (x y : F32) : F32 :=
  match fclassify x, fclassify y with
  | .nan, _ => qNaN
  | _, .nan => qNaN
  | .inf _, .inf _ => qNaN
  | .inf sx, .fin sy _ _ => finfty (sx != sy)
  | .fin sx _ _, .inf sy => fzero (sx != sy)
  | .fin sx a b, .fin sy c d =>
    let neg := sx != sy
    if c == 0 then (if a == 0 then qNaN else finfty neg)
    else if a == 0 then fzero neg
    else roundPos (a * d) (b * c) neg

/-- IEEE-754 `<` comparison (false whenever an operand is NaN). -/
def flt (x y : F32) : Bool :=
  match fclassify x, fclassify y with
  | .nan, _ => false
  | _, .nan => false
  | .inf sx, .inf sy => sx && !sy
  | .inf sx, .fin _ _ _ => sx
  | .fin _ _ _, .inf sy => !sy
  | .fin sx a b, .fin sy c d => decide (sgnInt sx a * (d : Int) < sgnInt sy c * (b : Int))

def fgt (x y : F32) : Bool := flt y x

/-- IEEE-754 `==` comparison (false whenever an operand is NaN; -0 equals +0). -/
def feq (x y : F32) : Bool :=
  match fclassify x, fclassify y with
  | .nan, _ => false
  | _, .nan => false
  | .inf sx, .inf sy => sx == sy
  | .inf _, .fin _ _ _ => false
  | .fin _ _ _, .inf _ => false
  | .fin sx a b, .fin sy c d => decide (sgnInt sx a * (d : Int) = sgnInt sy c * (b : Int))

def fne (x y : F32) : Bool := !(feq x y)

/-- IEEE-754 `>=` comparison (false whenever an operand is NaN). -/
def fge (x y : F32) : Bool := fgt x y || feq x y

def isNaNb (x : F32) : Bool :=
  match fclassify x with
  | .nan => true
  | _ => false

/-- Absolute value of an f32: clear the sign bit (Rust `f32::abs`). -/
def fabs (x : F32) : F32 := x % POW31

/-- Rust `f32::max`: if one argument is NaN the other is returned. -/
def fmax (x y : F32) : F32 :=
  if isNaNb x then y else if isNaNb y then x else if flt x y then y else x

/-
Constants of linalg.rs.  The named constants are given by the f32 bit
patterns of the Rust literals (each decimal literal rounded to the nearest
binary32 value), as are the anonymous literals `0.0`, `1.0`, `1.5`, `2.0`,
`-0.5`, `0.5`, `4.0`, `-2.0`, `-8.0`, `3.0` used in expressions.
-/

def GEMMA : F32 := 0x40ba827a
def CSTAR : F32 := 0x3f6c835e
def SSTAR : F32 := 0x3ec3ef15
def SVD_EPSILON : F32 := 0x358637bd
def JACOBI_STEPS : Nat := 12
def RSQRT_STEPS : Nat := 4
def RSQRT1_STEPS : Nat := 6

def lit0 : F32 := 0x00000000
def lit1 : F32 := 0x3f800000
def lit1_5 : F32 := 0x3fc00000
def lit2 : F32 := 0x40000000
def lit3 : F32 := 0x40400000
def lit4 : F32 := 0x40800000
def litHalf : F32 := 0x3f000000
def litNegHalf : F32 := 0xbf000000
def litNeg2 : F32 := 0xc0000000
def litNeg8 : F32 := 0xc1000000

/-- Rust `fdiv`: the exact-division primitive (`x / y`). -/
def fdiv (x y : F32) : F32 := f32div x y

/-- Reinterpret an f32 bit pattern as an `i32` (`x.to_bits() as i32`). -/
def toI32 (x : F32) : Int := if x < POW31 then (x : Int) else (x : Int) - (POW32 : Int)

/-- The bit-trick initial guess `magic - (i >> 1)` reinterpreted as an f32
(`>>` on `i32` is an arithmetic shift, i.e. flooring division by 2;
the subtraction wraps to 32 bits). -/
def rsqrtInit (magic : Int) (x : F32) : F32 :=
  ((magic - Int.fdiv (toI32 x) 2) % (POW32 : Int)).toNat

/-- One Newton-Raphson refinement pass `x = x * (x * x * xhalf + 1.5)`. -/
def rsqrtStep (xhalf y : F32) : F32 :=
  fmul y (fadd (fmul (fmul y y) xhalf) lit1_5)

/-- The refinement loop, iterated a fixed number of times. -/
def rsqrtIter (xhalf : F32) : Nat → F32 → F32
  | 0, y => y
  | n+1, y => rsqrtIter xhalf n (rsqrtStep xhalf y)

/-- Rust `rsqrt`: fast reciprocal square root, magic constant 0x5f375a82,
RSQRT_STEPS (= 4) refinement passes. -/
def rsqrt (x : F32) : F32 :=
  rsqrtIter (fmul litNegHalf x) RSQRT_STEPS (rsqrtInit 0x5f375a82 x)

/-- Rust `rsqrt1`: higher-precision variant, magic constant 0x5f37599e,
RSQRT1_STEPS (= 6) refinement passes. -/
def rsqrt1 (x : F32) : F32 :=
  rsqrtIter (fmul litNegHalf x) RSQRT1_STEPS (rsqrtInit 0x5f37599e x)

/-- Rust `accurate_sqrt`: `fdiv(1.0, rsqrt(x))`. -/
def accurate_sqrt (x : F32) : F32 := fdiv lit1 (rsqrt x)

/-- Rust `cond_swap`: swap the pair when the condition holds. -/
def cond_swap (c : Bool) (x y : F32) : F32 × F32 :=
  if c then (y, x) else (x, y)

/-- Rust `cond_neg_swap`: `z = -x; if c { x = y; y = z }`. -/
def cond_neg_swap (c : Bool) (x y : F32) : F32 × F32 :=
  if c then (y, fneg x) else (x, y)

/-- glam `Vec3` of f32 values. -/
structure Vec3 where
  x : F32
  y : F32
  z : F32
deriving DecidableEq

/-- glam `Mat3`, three `Vec3` axes. -/
structure Mat3 where
  x_axis : Vec3
  y_axis : Vec3
  z_axis : Vec3
deriving DecidableEq

/-- The symmetric 3x3 matrix storage of linalg.rs (6 independent entries). -/
structure Symmetric3x3 where
  m_00 : F32
  m_10 : F32
  m_11 : F32
  m_20 : F32
  m_21 : F32
  m_22 : F32
deriving DecidableEq

/-- The Givens rotation parameter pair of linalg.rs. -/
structure Givens where
  ch : F32
  sh : F32
deriving DecidableEq

/-- glam `Quat` (x, y, z, w components), the rotation accumulator wrapped
by `IndexedQuat` in linalg.rs. -/
structure Quat where
  x : F32
  y : F32
  z : F32
  w : F32
deriving DecidableEq

/-- The QR result bundle of linalg.rs. -/
structure QR where
  Q : Mat3
  R : Mat3
deriving DecidableEq

/-- The SVD result bundle of linalg.rs. -/
structure SVDSet where
  U : Mat3
  S : Mat3
  V : Mat3
deriving DecidableEq

/-- The `Index` impl of `IndexedQuat`: components x, y, z, w at indices
0..3; any other index panics (modelled as `none`). -/
def Quat.get (q : Quat) : Nat → Option F32
  | 0 => some q.x
  | 1 => some q.y
  | 2 => some q.z
  | 3 => some q.w
  | _+4 => none

/-- The `IndexMut` impl of `IndexedQuat`: write the component at indices
0..3; any other index panics (modelled as `none`). -/
def Quat.set (q : Quat) : Nat → F32 → Option Quat
  | 0, v => some { q with x := v }
  | 1, v => some { q with y := v }
  | 2, v => some { q with z := v }
  | 3, v => some { q with w := v }
  | _+4, _ => none

/-- The local `tmp: [f32; 3]` array of `jacobi_conjugation`; indexing it
out of range likewise panics. -/
def tmpGet (t0 t1 t2 : F32) : Nat → Option F32
  | 0 => some t0
  | 1 => some t1
  | 2 => some t2
  | _+3 => none

/-- glam `Mat3::transpose`. -/
def transpose (m : Mat3) : Mat3 :=
  { x_axis := ⟨m.x_axis.x, m.y_axis.x, m.z_axis.x⟩
    y_axis := ⟨m.x_axis.y, m.y_axis.y, m.z_axis.y⟩
    z_axis := ⟨m.x_axis.z, m.y_axis.z, m.z_axis.z⟩ }

/-- glam `Mat3::mul_vec3`: `x_axis * v.x + y_axis * v.y + z_axis * v.z`,
evaluated left to right componentwise. -/
def mul_vec3 (m : Mat3) (v : Vec3) : Vec3 :=
  ⟨fadd (fadd (fmul m.x_axis.x v.x) (fmul m.y_axis.x v.y)) (fmul m.z_axis.x v.z),
   fadd (fadd (fmul m.x_axis.y v.x) (fmul m.y_axis.y v.y)) (fmul m.z_axis.y v.z),
   fadd (fadd (fmul m.x_axis.z v.x) (fmul m.y_axis.z v.y)) (fmul m.z_axis.z v.z)⟩

/-- glam `Mat3::mul_mat3`: columns of the product are `self * rhs.col`. -/
def mul_mat3 (m n : Mat3) : Mat3 :=
  { x_axis := mul_vec3 m n.x_axis
    y_axis := mul_vec3 m n.y_axis
    z_axis := mul_vec3 m n.z_axis }

/-- `Symmetric3x3::from_mat3x3`. -/
def Symmetric3x3.from_mat3x3 (mat : Mat3) : Symmetric3x3 :=
  { m_00 := mat.x_axis.x
    m_10 := mat.x_axis.y
    m_11 := mat.y_axis.y
    m_20 := mat.z_axis.x
    m_21 := mat.z_axis.y
    m_22 := mat.z_axis.z }

/-- Rust `dist2`: `x * x + (y * y + z * z)`. -/
def dist2 (x y z : F32) : F32 :=
  fadd (fmul x x) (fadd (fmul y y) (fmul z z))

/-- Rust `quaternion_to_matrix` (reads q[3], q[0], q[1], q[2] through the
indexed accessor). -/
def quaternion_to_matrix (q : Quat) : Option Mat3 := do
  let w ← q.get 3
  let x ← q.get 0
  let y ← q.get 1
  let z ← q.get 2
  pure
    { x_axis := ⟨fsub lit1 (fmul lit2 (fadd (fmul y y) (fmul z z))),
                 fmul lit2 (fsub (fmul x y) (fmul w z)),
                 fmul lit2 (fadd (fmul x z) (fmul w y))⟩
      y_axis := ⟨fmul lit2 (fadd (fmul x y) (fmul w z)),
                 fsub lit1 (fmul lit2 (fadd (fmul x x) (fmul z z))),
                 fmul lit2 (fsub (fmul y z) (fmul w x))⟩
      z_axis := ⟨fmul lit2 (fsub (fmul x z) (fmul w y)),
                 fmul lit2 (fadd (fmul y z) (fmul w x)),
                 fsub lit1 (fmul lit2 (fadd (fmul x x) (fmul y y)))⟩ }

/-- Rust `approximate_givens_quaternion` (Algorithm 2). -/
def approximate_givens_quaternion (A : Symmetric3x3) : Givens :=
  let gch := fmul lit2 (fsub A.m_00 A.m_11)
  let gsh := A.m_10
  let b := flt (fmul (fmul GEMMA gsh) gsh) (fmul gch gch)
  let w := rsqrt (fadd (fmul gch gch) (fmul gsh gsh))
  let b2 := if fne w w then false else b
  { ch := if b2 then fmul w gch else CSTAR
    sh := if b2 then fmul w gsh else SSTAR }

/-- Rust `jacobi_conjugation`: one Givens conjugation step on the symmetric
matrix together with the closed-form quaternion accumulation, followed by
the cyclic re-arrangement of the six entries. -/
def jacobi_conjugation (x y z : Nat) (S : Symmetric3x3) (q : Quat) :
    Option (Symmetric3x3 × Quat) := do
  let g := approximate_givens_quaternion S
  let scale := f32div lit1 (fadd (fmul g.ch g.ch) (fmul g.sh g.sh))
  let a := fmul (fsub (fmul g.ch g.ch) (fmul g.sh g.sh)) scale
  let b := fmul (fmul (fmul lit2 g.sh) g.ch) scale
  let n00 := fadd (fmul a (fadd (fmul a S.m_00) (fmul b S.m_10)))
                  (fmul b (fadd (fmul a S.m_10) (fmul b S.m_11)))
  let n10 := fadd (fmul a (fadd (fmul (fneg b) S.m_00) (fmul a S.m_10)))
                  (fmul b (fadd (fmul (fneg b) S.m_10) (fmul a S.m_11)))
  let n11 := fadd (fmul (fneg b) (fadd (fmul (fneg b) S.m_00) (fmul a S.m_10)))
                  (fmul a (fadd (fmul (fneg b) S.m_10) (fmul a S.m_11)))
  let n20 := fadd (fmul a S.m_20) (fmul b S.m_21)
  let n21 := fadd (fmul (fneg b) S.m_20) (fmul a S.m_21)
  let n22 := S.m_22
  let tmp0 := fmul q.x g.sh
  let tmp1 := fmul q.y g.sh
  let tmp2 := fmul q.z g.sh
  let gsh2 := fmul g.sh q.w
  let qz ← q.get z
  let q ← q.set z (fadd (fmul qz g.ch) gsh2)
  let q3 ← q.get 3
  let tz ← tmpGet tmp0 tmp1 tmp2 z
  let q ← q.set 3 (fsub (fmul q3 g.ch) tz)
  let qx ← q.get x
  let ty ← tmpGet tmp0 tmp1 tmp2 y
  let q ← q.set x (fadd (fmul qx g.ch) ty)
  let qy ← q.get y
  let tx ← tmpGet tmp0 tmp1 tmp2 x
  let q ← q.set y (fsub (fmul qy g.ch) tx)
  pure ({ m_00 := n11, m_10 := n21, m_11 := n22,
          m_20 := n10, m_21 := n20, m_22 := n00 }, q)

/-- The body of the `for` loop of `jacobi_eigenanalysis`, iterated `n`
times: the three axis-pair conjugations in the fixed order
(0,1,2), (1,2,0), (2,0,1). -/
def jacobiSweeps : Nat → Symmetric3x3 → Quat → Option (Symmetric3x3 × Quat)
  | 0, S, q => some (S, q)
  | n+1, S, q => do
    let p1 ← jacobi_conjugation 0 1 2 S q
    let p2 ← jacobi_conjugation 1 2 0 p1.1 p1.2
    let p3 ← jacobi_conjugation 2 0 1 p2.1 p2.2
    jacobiSweeps n p3.1 p3.2

/-- Rust `jacobi_eigenanalysis`: JACOBI_STEPS (= 12) sweeps starting from
the quaternion (0,0,0,1), then conversion to a matrix. -/
def jacobi_eigenanalysis (S : Symmetric3x3) : Option Mat3 := do
  let p ← jacobiSweeps JACOBI_STEPS S ⟨lit0, lit0, lit0, lit1⟩
  quaternion_to_matrix p.2

set_option linter.unusedVariables false in
/-- Rust `sort_singular_values` (Algorithm 3): three conditional
negating column swaps applied to B and V, keyed on the squared norms
of the x/y/z components of the three axes of B.  (The final value of
`rho1` is dead, exactly as in the source.) -/
def sort_singular_values (B V : Mat3) : Mat3 × Mat3 :=
  let bxx := B.x_axis.x; let bxy := B.x_axis.y; let bxz := B.x_axis.z
  let byx := B.y_axis.x; let byy := B.y_axis.y; let byz := B.y_axis.z
  let bzx := B.z_axis.x; let bzy := B.z_axis.y; let bzz := B.z_axis.z
  let vxx := V.x_axis.x; let vxy := V.x_axis.y; let vxz := V.x_axis.z
  let vyx := V.y_axis.x; let vyy := V.y_axis.y; let vyz := V.y_axis.z
  let vzx := V.z_axis.x; let vzy := V.z_axis.y; let vzz := V.z_axis.z
  let rho1 := dist2 bxx byx bzx
  let rho2 := dist2 bxy byy bzy
  let rho3 := dist2 bxz byz bzz
  let c := flt rho1 rho2
  let p := cond_neg_swap c bxx bxy; let bxx := p.1; let bxy := p.2
  let p := cond_neg_swap c vxx vxy; let vxx := p.1; let vxy := p.2
  let p := cond_neg_swap c byx byy; let byx := p.1; let byy := p.2
  let p := cond_neg_swap c vyx vyy; let vyx := p.1; let vyy := p.2
  let p := cond_neg_swap c bzx bzy; let bzx := p.1; let bzy := p.2
  let p := cond_neg_swap c vzx vzy; let vzx := p.1; let vzy := p.2
  let p := cond_swap c rho1 rho2; let rho1 := p.1; let rho2 := p.2
  let c := flt rho1 rho3
  let p := cond_neg_swap c bxx bxz; let bxx := p.1; let bxz := p.2
  let p := cond_neg_swap c vxx vxz; let vxx := p.1; let vxz := p.2
  let p := cond_neg_swap c byx byz; let byx := p.1; let byz := p.2
  let p := cond_neg_swap c vyx vyz; let vyx := p.1; let vyz := p.2
  let p := cond_neg_swap c bzx bzz; let bzx := p.1; let bzz := p.2
  let p := cond_neg_swap c vzx vzz; let vzx := p.1; let vzz := p.2
  let p := cond_swap c rho1 rho3; let rho1 := p.1; let rho3 := p.2
  let c := flt rho2 rho3
  let p := cond_neg_swap c bxy bxz; let bxy := p.1; let bxz := p.2
  let p := cond_neg_swap c vxy vxz; let vxy := p.1; let vxz := p.2
  let p := cond_neg_swap c byy byz; let byy := p.1; let byz := p.2
  let p := cond_neg_swap c vyy vyz; let vyy := p.1; let vyz := p.2
  let p := cond_neg_swap c bzy bzz; let bzy := p.1; let bzz := p.2
  let p := cond_neg_swap c vzy vzz; let vzy := p.1; let vzz := p.2
  (⟨⟨bxx, bxy, bxz⟩, ⟨byx, byy, byz⟩, ⟨bzx, bzy, bzz⟩⟩,
   ⟨⟨vxx, vxy, vxz⟩, ⟨vyx, vyy, vyz⟩, ⟨vzx, vzy, vzz⟩⟩)

/-- Rust `qr_givens_quaternion` (Algorithm 4). -/
def qr_givens_quaternion (a1 a2 : F32) : Givens :=
  let rho := accurate_sqrt (fadd (fmul a1 a1) (fmul a2 a2))
  let gch := fadd (fabs a1) (fmax rho SVD_EPSILON)
  let gsh := if fgt rho SVD_EPSILON then a2 else lit0
  let b := flt a1 lit0
  let p := cond_swap b gsh gch
  let gsh := p.1
  let gch := p.2
  let w := rsqrt (fadd (fmul gch gch) (fmul gsh gsh))
  { ch := fmul gch w, sh := fmul gsh w }

/-- Rust `qr_decomposition`.  The first component of the result is the
final state of the matrix passed by `&mut` (last written by the second
Givens rotation block); the second component is the returned QR bundle. -/
def qr_decomposition (B : Mat3) : Mat3 × QR :=
  let bxx := B.x_axis.x; let bxy := B.x_axis.y; let bxz := B.x_axis.z
  let byx := B.y_axis.x; let byy := B.y_axis.y; let byz := B.y_axis.z
  let bzx := B.z_axis.x; let bzy := B.z_axis.y; let bzz := B.z_axis.z
  let g1 := qr_givens_quaternion bxx byx
  let a := fadd (fmul (fmul litNeg2 g1.sh) g1.sh) lit1
  let b := fmul (fmul lit2 g1.ch) g1.sh
  let rxx := fadd (fmul a bxx) (fmul b byx)
  let rxy := fadd (fmul a bxy) (fmul b byy)
  let rxz := fadd (fmul a bxz) (fmul b byz)
  let ryx := fadd (fmul (fneg b) bxx) (fmul a byx)
  let ryy := fadd (fmul (fneg b) bxy) (fmul a byy)
  let ryz := fadd (fmul (fneg b) bxz) (fmul a byz)
  let rzx := bzx
  let rzy := bzy
  let rzz := bzz
  let g2 := qr_givens_quaternion rxx rzx
  let a := fadd (fmul (fmul litNeg2 g2.sh) g2.sh) lit1
  let b := fmul (fmul lit2 g2.ch) g2.sh
  let cxx := fadd (fmul a rxx) (fmul b rzx)
  let cxy := fadd (fmul a rxy) (fmul b rzy)
  let cxz := fadd (fmul a rxz) (fmul b rzz)
  let cyx := ryx
  let cyy := ryy
  let cyz := ryz
  let czx := fadd (fmul (fneg b) rxx) (fmul a rzx)
  let czy := fadd (fmul (fneg b) rxy) (fmul a rzy)
  let czz := fadd (fmul (fneg b) rxz) (fmul a rzz)
  let g3 := qr_givens_quaternion cyy czy
  let a := fadd (fmul (fmul litNeg2 g3.sh) g3.sh) lit1
  let b := fmul (fmul lit2 g3.ch) g3.sh
  let fxx := cxx
  let fxy := cxy
  let fxz := cxz
  let fyx := fadd (fmul a cyx) (fmul b czx)
  let fyy := fadd (fmul a cyy) (fmul b czy)
  let fyz := fadd (fmul a cyz) (fmul b czz)
  let fzx := fadd (fmul (fneg b) cyx) (fmul a czx)
  let fzy := fadd (fmul (fneg b) cyy) (fmul a czy)
  let fzz := fadd (fmul (fneg b) cyz) (fmul a czz)
  let sh12 := fmul lit2 (fsub (fmul g1.sh g1.sh) litHalf)
  let sh22 := fmul lit2 (fsub (fmul g2.sh g2.sh) litHalf)
  let sh32 := fmul lit2 (fsub (fmul g3.sh g3.sh) litHalf)
  let qxx := fmul sh12 sh22
  let qxy := fadd (fmul (fmul (fmul (fmul (fmul lit4 g2.ch) g3.ch) sh12) g2.sh) g3.sh)
                  (fmul (fmul (fmul lit2 g1.ch) g1.sh) sh32)
  let qxz := fsub (fmul (fmul (fmul (fmul lit4 g1.ch) g3.ch) g1.sh) g3.sh)
                  (fmul (fmul (fmul (fmul lit2 g2.ch) sh12) g2.sh) sh32)
  let qyx := fmul (fmul (fmul litNeg2 g1.ch) g1.sh) sh22
  let qyy := fadd (fmul (fmul (fmul (fmul (fmul (fmul litNeg8 g1.ch) g2.ch) g3.ch) g1.sh) g2.sh) g3.sh)
                  (fmul sh12 sh32)
  let qyz := fadd (fmul (fmul litNeg2 g3.ch) g3.sh)
                  (fmul (fmul lit4 g1.sh)
                        (fadd (fmul (fmul g3.ch g1.sh) g3.sh)
                              (fmul (fmul (fmul g1.ch g2.ch) g2.sh) sh32)))
  let qzx := fmul (fmul lit2 g2.ch) g2.sh
  let qzy := fmul (fmul (fmul litNeg2 g3.ch) sh22) g3.sh
  let qzz := fmul sh22 sh32
  (⟨⟨cxx, cxy, cxz⟩, ⟨cyx, cyy, cyz⟩, ⟨czx, czy, czz⟩⟩,
   { Q := ⟨⟨qxx, qxy, qxz⟩, ⟨qyx, qyy, qyz⟩, ⟨qzx, qzy, qzz⟩⟩
     R := ⟨⟨fxx, fxy, fxz⟩, ⟨fyx, fyy, fyz⟩, ⟨fzx, fzy, fzz⟩⟩ })

/-- Rust `svd`.  Note that `sort_singular_values` is called with
`&mut B` and `&mut V.clone()`: the sorted B is kept, while the sorted
copy of V is dropped and the original V is returned. -/
def svd (A : Mat3) : Option SVDSet := do
  let V ← jacobi_eigenanalysis
    (Symmetric3x3.from_mat3x3 (mul_mat3 (transpose A) A))
  let B := mul_mat3 A V
  let sorted := sort_singular_values B V
  let B2 := sorted.1
  let qr := (qr_decomposition B2).2
  pure { U := qr.Q, S := qr.R, V := V }

/-
Concrete inputs and results used by the theorems below.  All bit
patterns were computed with this very semantics (they can be re-checked
by `decide`); the matrices are written axis by axis, matching the glam
`Mat3 { x_axis, y_axis, z_axis }` layout used throughout linalg.rs.
-/

/-- The matrix diag(1, 2, 3) of the repository's own test. -/
def Adiag : Mat3 := ⟨⟨lit1, lit0, lit0⟩, ⟨lit0, lit2, lit0⟩, ⟨lit0, lit0, lit3⟩⟩

/-- The exact SVDSet produced by `svd Adiag`. -/
def Rdiag : SVDSet :=
  { U := ⟨⟨0x34400000, 0x00000000, 0x3f7ffffe⟩,
          ⟨0x00000000, 0xbf800000, 0x00000000⟩,
          ⟨0x3f7ffffe, 0x00000000, 0xb4400000⟩⟩
    S := ⟨⟨0x403ffffe, 0x80000000, 0x34400000⟩,
          ⟨0x00000000, 0x40000000, 0x80000000⟩,
          ⟨0xb5100000, 0x00000000, 0x3f7ffffe⟩⟩
    V := ⟨⟨0x3f800000, 0x00000000, 0x00000000⟩,
          ⟨0x00000000, 0x3f800000, 0x80000000⟩,
          ⟨0x80000000, 0x00000000, 0x3f800000⟩⟩ }

/-- Shared evaluation of `svd` at `Adiag`. -/
theorem svd_Adiag_eq : svd Adiag = some Rdiag := by decide

/-- A finite input on which the diagonal of S comes out misordered
(S11 is about 0.032 while S22 is about 27.2). -/
def Aord : Mat3 :=
  ⟨⟨0xbf46de04, 0xc17325c8, 0x3bc77aa7⟩,
   ⟨0x4552560d, 0x3b55b59b, 0x42ae19f8⟩,
   ⟨0xb7a179e5, 0x41b4bb6c, 0x3c9b1735⟩⟩

/-- A finite input on which S22 comes out negative (about -0.09). -/
def Aneg : Mat3 :=
  ⟨⟨0x37b898d1, 0xbfa217be, 0x3da4ede6⟩,
   ⟨0x404ef8aa, 0xb8b01850, 0x389012f0⟩,
   ⟨0xc0b4b9b5, 0xc1ed76b0, 0xbe7403e4⟩⟩

/-- The matrix with axes (1,2,3), (4,5,6), (7,8,10), used to exhibit the
frame effect of `qr_decomposition`. -/
def B10 : Mat3 :=
  ⟨⟨0x3f800000, 0x40000000, 0x40400000⟩,
   ⟨0x40800000, 0x40a00000, 0x40c00000⟩,
   ⟨0x40e00000, 0x41000000, 0x41200000⟩⟩

/-- The reconstruction `U * S * V^T` of the claimed SVD contract. -/
def reconUSVt (r : SVDSet) : Mat3 :=
  mul_mat3 r.U (mul_mat3 r.S (transpose r.V))

/-- Do two finite f32 values differ by more than `tn / td`?  (Exact
integer comparison on the decoded values; false unless both are finite.) -/
def finDiffExceeds (x y : F32) (tn td : Nat) : Bool :=
  match fclassify x, fclassify y with
  | .fin sx a b, .fin sy c d =>
    decide (tn * (b * d) < (sgnInt sx a * (d : Int) - sgnInt sy c * (b : Int)).natAbs * td)
  | _, _ => false

/-- On NaN-free inputs, `x != x` is exactly the NaN test. -/
theorem fne_self_eq_isNaN (x : F32) : fne x x = isNaNb x := by
  unfold fne feq isNaNb
  cases h : fclassify x with
  | nan => rfl
  | inf s => simp
  | fin s a b => simp

/-- Claim C1: in `svd`, the returned V field is never the column-reordered
matrix: `sort_singular_values` receives `&mut V.clone()`, so `svd` always
returns the raw Jacobi eigenvector matrix (first conjunct), even on inputs
where the conditional swaps fire and reordering would change V, such as
diag(1, 2, 3) (second conjunct). -/
theorem C1_svd_returns_unsorted_V :
    (∀ A, (svd A).map SVDSet.V =
      jacobi_eigenanalysis (Symmetric3x3.from_mat3x3 (mul_mat3 (transpose A) A)))
    ∧ (svd Adiag).map (fun r =>
        decide ((sort_singular_values (mul_mat3 Adiag r.V) r.V).2 ≠ r.V)) = some true := by
  constructor
  · intro A
    cases h : jacobi_eigenanalysis (Symmetric3x3.from_mat3x3 (mul_mat3 (transpose A) A)) with
    | none => simp [svd, h]
    | some V => simp [svd, h]
  · rw [svd_Adiag_eq]; decide

/-- Claim C2: the reconstruction contract fails.  At the input
diag(1, 2, 3), the entry (y_axis.y) of `U * S * V^T` is exactly -2 while
the input entry is 2, a difference of 4, far above the claimed 1e-4
tolerance (a consequence of V never being reordered together with B). -/
theorem C2_reconstruction_fails :
    (svd Adiag).map (fun r =>
      finDiffExceeds (reconUSVt r).y_axis.y Adiag.y_axis.y 1 10000) = some true := by
  rw [svd_Adiag_eq]; decide

/-- Claim C3, counterexample: the diagonal of S is neither always
non-increasing nor always non-negative for finite inputs.  At `Aord` the
comparison S11 >= S22 is false (0.032 vs 27.2); at `Aneg` the comparison
S22 >= 0 is false (S22 is about -0.09). -/
theorem C3_ordering_counterexample :
    (svd Aord).map (fun r => fge r.S.y_axis.y r.S.z_axis.z) = some false
    ∧ (svd Aneg).map (fun r => fge r.S.z_axis.z lit0) = some false := by
  constructor
  · decide
  · decide

/-- Claim C3, amended: at the representative input diag(1, 2, 3) (the
repository's own test matrix) the diagonal of S is non-negative and
non-increasing; the universal statement is false (see the counterexample). -/
theorem C3_ordering_at_test_input :
    (svd Adiag).map (fun r =>
      fge r.S.x_axis.x r.S.y_axis.y
      && (fge r.S.y_axis.y r.S.z_axis.z && fge r.S.z_axis.z lit0)) = some true := by
  rw [svd_Adiag_eq]; decide

/-- Claim C4: `accurate_sqrt` is exactly `fdiv(1.0, rsqrt(x))` where
`rsqrt` is the 4-pass variant with magic constant 0x5f375a82 (and
`rsqrt1` the 6-pass variant with 0x5f37599e); the two variants differ,
e.g. at x = 1.0, so the wiring is observable. -/
theorem C4_accurate_sqrt_uses_fast_rsqrt :
    (∀ x, accurate_sqrt x = fdiv lit1 (rsqrt x))
    ∧ (∀ x, rsqrt x = rsqrtIter (fmul litNegHalf x) 4 (rsqrtInit 0x5f375a82 x))
    ∧ (∀ x, rsqrt1 x = rsqrtIter (fmul litNegHalf x) 6 (rsqrtInit 0x5f37599e x))
    ∧ rsqrt lit1 ≠ rsqrt1 lit1
    ∧ accurate_sqrt lit1 ≠ fdiv lit1 (rsqrt1 lit1) :=
  ⟨fun _ => rfl, fun _ => rfl, fun _ => rfl, by decide, by decide⟩

/-- Claim C5: `approximate_givens_quaternion` returns the normalized
candidate (w*ch, w*sh) with ch = 2*(m00 - m11), sh = m10 and
w = rsqrt(ch^2 + sh^2) exactly when GEMMA*sh^2 < ch^2 holds and w is not
NaN, and the fixed fallback (CSTAR, SSTAR) otherwise. -/
theorem C5_approximate_givens_cases :
    ∀ A : Symmetric3x3,
      approximate_givens_quaternion A =
        (let ch := fmul lit2 (fsub A.m_00 A.m_11)
         let sh := A.m_10
         let w := rsqrt (fadd (fmul ch ch) (fmul sh sh))
         if flt (fmul (fmul GEMMA sh) sh) (fmul ch ch) && !(isNaNb w)
         then { ch := fmul w ch, sh := fmul w sh }
         else { ch := CSTAR, sh := SSTAR }) := by
  intro A
  simp only [approximate_givens_quaternion]
  rw [fne_self_eq_isNaN]
  cases hb : flt (fmul (fmul GEMMA A.m_10) A.m_10)
      (fmul (fmul lit2 (fsub A.m_00 A.m_11)) (fmul lit2 (fsub A.m_00 A.m_11))) with
  | false =>
    cases hn : isNaNb (rsqrt (fadd
        (fmul (fmul lit2 (fsub A.m_00 A.m_11)) (fmul lit2 (fsub A.m_00 A.m_11)))
        (fmul A.m_10 A.m_10))) <;> simp [hb, hn]
  | true =>
    cases hn : isNaNb (rsqrt (fadd
        (fmul (fmul lit2 (fsub A.m_00 A.m_11)) (fmul lit2 (fsub A.m_00 A.m_11)))
        (fmul A.m_10 A.m_10))) <;> simp [hb, hn]

/-- Claim C6: `qr_givens_quaternion` computes rho = accurate_sqrt(a1^2 +
a2^2), ch = |a1| + max(rho, eps), sh = a2 if rho > eps else 0 (eps =
SVD_EPSILON = 1e-6), swaps ch and sh when a1 < 0, and scales both by
rsqrt(ch^2 + sh^2). -/
theorem C6_qr_givens_formula :
    ∀ a1 a2 : F32,
      qr_givens_quaternion a1 a2 =
        (let rho := accurate_sqrt (fadd (fmul a1 a1) (fmul a2 a2))
         let ch := fadd (fabs a1) (fmax rho SVD_EPSILON)
         let sh := if fgt rho SVD_EPSILON then a2 else lit0
         let ch2 := if flt a1 lit0 then sh else ch
         let sh2 := if flt a1 lit0 then ch else sh
         let w := rsqrt (fadd (fmul ch2 ch2) (fmul sh2 sh2))
         { ch := fmul ch2 w, sh := fmul sh2 w }) := by
  intro a1 a2
  simp only [qr_givens_quaternion, cond_swap]
  cases h : flt a1 lit0 <;> simp only [h, Bool.false_eq_true, if_true, if_false]

/-- The list of axis-pair triples of one sweep, in program order. -/
def sweepTriples : List (Nat × Nat × Nat) := [(0, 1, 2), (1, 2, 0), (2, 0, 1)]

/-- One rotation of the Jacobi loop as a fold step. -/
def conjStep (p : Symmetric3x3 × Quat) (t : Nat × Nat × Nat) :
    Option (Symmetric3x3 × Quat) :=
  jacobi_conjugation t.1 t.2.1 t.2.2 p.1 p.2

/-- The full fixed rotation schedule: JACOBI_STEPS (= 12) sweeps of the
three axis pairs, i.e. 36 rotations, independent of the data. -/
def rotationSequence : List (Nat × Nat × Nat) :=
  (List.replicate JACOBI_STEPS sweepTriples).flatten

/-- Folding `n` copies of the sweep list equals `n` unfoldings of the
loop body. -/
theorem foldl_replicate_sweeps (n : Nat) :
    ∀ p : Symmetric3x3 × Quat,
      List.foldlM conjStep p (List.replicate n sweepTriples).flatten =
      jacobiSweeps n p.1 p.2 := by
  induction n with
  | zero => intro p; rfl
  | succ n ih =>
    intro p
    rw [List.replicate_succ]
    have h1 : List.foldlM conjStep p
        ((sweepTriples :: List.replicate n sweepTriples).flatten) =
        conjStep p (0, 1, 2) >>= fun b1 =>
          conjStep b1 (1, 2, 0) >>= fun b2 =>
            conjStep b2 (2, 0, 1) >>= fun b3 =>
              List.foldlM conjStep b3 (List.replicate n sweepTriples).flatten := rfl
    rw [h1]
    simp only [ih]
    rfl

/-- Claim C7: `jacobi_eigenanalysis` performs exactly the fixed schedule of
12 sweeps x 3 axis pairs = 36 rotations in the order (0,1,2), (1,2,0),
(2,0,1), starting from the quaternion (0,0,0,1), with no data-dependent
exit, and returns the accumulated quaternion converted to a matrix. -/
theorem C7_jacobi_fixed_schedule :
    rotationSequence.length = 36
    ∧ ∀ S, jacobi_eigenanalysis S =
        (List.foldlM conjStep (S, ⟨lit0, lit0, lit0, lit1⟩) rotationSequence) >>=
          fun p => quaternion_to_matrix p.2 := by
  refine ⟨by decide, fun S => ?_⟩
  show jacobi_eigenanalysis S =
    (List.foldlM conjStep (S, ⟨lit0, lit0, lit0, lit1⟩)
      (List.replicate JACOBI_STEPS sweepTriples).flatten) >>=
      fun p => quaternion_to_matrix p.2
  rw [foldl_replicate_sweeps]
  rfl

/-- Claim C8: indexing the rotation accumulator at 0, 1, 2, 3 reads
(and writes) the x, y, z, w components respectively, and every index
above 3 hits the panicking branch (modelled by `none`), for both the
`Index` and the `IndexMut` implementations. -/
theorem C8_indexed_quat_access :
    ∀ (q : Quat) (v : F32),
      (q.get 0 = some q.x ∧ q.get 1 = some q.y ∧ q.get 2 = some q.z ∧ q.get 3 = some q.w)
      ∧ (q.set 0 v = some ⟨v, q.y, q.z, q.w⟩ ∧ q.set 1 v = some ⟨q.x, v, q.z, q.w⟩
         ∧ q.set 2 v = some ⟨q.x, q.y, v, q.w⟩ ∧ q.set 3 v = some ⟨q.x, q.y, q.z, v⟩)
      ∧ (∀ i, 3 < i → q.get i = none ∧ q.set i v = none) := by
  intro q v
  refine ⟨⟨rfl, rfl, rfl, rfl⟩, ⟨rfl, rfl, rfl, rfl⟩, fun i hi => ?_⟩
  obtain ⟨k, rfl⟩ : ∃ k, i = k + 4 := ⟨i - 4, by omega⟩
  exact ⟨rfl, rfl⟩

/-- Witness for claim C8: reading and writing index 4 on a concrete
accumulator both reach the panicking branch. -/
theorem C8_indexed_quat_access_witness :
    Quat.get ⟨lit0, lit0, lit0, lit1⟩ 4 = none
    ∧ Quat.set ⟨lit0, lit0, lit0, lit1⟩ 4 lit1 = none :=
  (C8_indexed_quat_access ⟨lit0, lit0, lit0, lit1⟩ lit1).2.2 4 (by decide)

/-- The first conjugation of a sweep always succeeds (its accumulator
indices are the literals 0, 1, 2, 3). -/
theorem conj012_total (S : Symmetric3x3) (q : Quat) :
    ∃ p, jacobi_conjugation 0 1 2 S q = some p := ⟨_, rfl⟩

/-- The second conjugation of a sweep always succeeds. -/
theorem conj120_total (S : Symmetric3x3) (q : Quat) :
    ∃ p, jacobi_conjugation 1 2 0 S q = some p := ⟨_, rfl⟩

/-- The third conjugation of a sweep always succeeds. -/
theorem conj201_total (S : Symmetric3x3) (q : Quat) :
    ∃ p, jacobi_conjugation 2 0 1 S q = some p := ⟨_, rfl⟩

/-- The Jacobi sweep loop never reaches the panicking branch. -/
theorem jacobiSweeps_total : ∀ (n : Nat) (S : Symmetric3x3) (q : Quat),
    (jacobiSweeps n S q).isSome = true := by
  intro n
  induction n with
  | zero => intro S q; rfl
  | succ n ih =>
    intro S q
    obtain ⟨p1, h1⟩ := conj012_total S q
    obtain ⟨p2, h2⟩ := conj120_total p1.1 p1.2
    obtain ⟨p3, h3⟩ := conj201_total p2.1 p2.2
    simp [jacobiSweeps, h1, h2, h3, ih]

/-- Quaternion-to-matrix conversion never reaches the panicking branch. -/
theorem quaternion_to_matrix_total (q : Quat) :
    ∃ m, quaternion_to_matrix q = some m := ⟨_, rfl⟩

/-- The eigen-solver never reaches the panicking branch. -/
theorem jacobi_eigenanalysis_total (S : Symmetric3x3) :
    (jacobi_eigenanalysis S).isSome = true := by
  obtain ⟨p, hp⟩ := Option.isSome_iff_exists.mp
    (jacobiSweeps_total JACOBI_STEPS S ⟨lit0, lit0, lit0, lit1⟩)
  obtain ⟨m, hm⟩ := quaternion_to_matrix_total p.2
  simp [jacobi_eigenanalysis, hp, hm]

/-- Claim C9: `svd` terminates with a result on every input bit pattern
(including non-finite entries): every rotation-accumulator index in its
call tree is one of the literals 0..3, so the panicking branch is
unreachable, and everything else in the call tree is total. -/
theorem C9_svd_never_panics : ∀ A : Mat3, (svd A).isSome = true := by
  intro A
  obtain ⟨V, hV⟩ := Option.isSome_iff_exists.mp
    (jacobi_eigenanalysis_total (Symmetric3x3.from_mat3x3 (mul_mat3 (transpose A) A)))
  simp [svd, hV]

/-- The working state of the matrix passed by `&mut` to
`qr_decomposition` after the second Givens rotation block (the last
writes the function makes to it). -/
def qrSecondStage (B : Mat3) : Mat3 :=
  let g1 := qr_givens_quaternion B.x_axis.x B.y_axis.x
  let a1 := fadd (fmul (fmul litNeg2 g1.sh) g1.sh) lit1
  let b1 := fmul (fmul lit2 g1.ch) g1.sh
  let rxx := fadd (fmul a1 B.x_axis.x) (fmul b1 B.y_axis.x)
  let rxy := fadd (fmul a1 B.x_axis.y) (fmul b1 B.y_axis.y)
  let rxz := fadd (fmul a1 B.x_axis.z) (fmul b1 B.y_axis.z)
  let ryx := fadd (fmul (fneg b1) B.x_axis.x) (fmul a1 B.y_axis.x)
  let ryy := fadd (fmul (fneg b1) B.x_axis.y) (fmul a1 B.y_axis.y)
  let ryz := fadd (fmul (fneg b1) B.x_axis.z) (fmul a1 B.y_axis.z)
  let g2 := qr_givens_quaternion rxx B.z_axis.x
  let a2 := fadd (fmul (fmul litNeg2 g2.sh) g2.sh) lit1
  let b2 := fmul (fmul lit2 g2.ch) g2.sh
  ⟨⟨fadd (fmul a2 rxx) (fmul b2 B.z_axis.x),
    fadd (fmul a2 rxy) (fmul b2 B.z_axis.y),
    fadd (fmul a2 rxz) (fmul b2 B.z_axis.z)⟩,
   ⟨ryx, ryy, ryz⟩,
   ⟨fadd (fmul (fneg b2) rxx) (fmul a2 B.z_axis.x),
    fadd (fmul (fneg b2) rxy) (fmul a2 B.z_axis.y),
    fadd (fmul (fneg b2) rxz) (fmul a2 B.z_axis.z)⟩⟩

/-- Claim C10: `qr_decomposition` leaves in the caller's matrix the
working state written by the second Givens rotation block, which at the
concrete input `B10` differs both from the original input and from the
returned upper-triangular factor R. -/
theorem C10_qr_mutates_argument :
    (∀ B, (qr_decomposition B).1 = qrSecondStage B)
    ∧ (qr_decomposition B10).1 ≠ B10
    ∧ (qr_decomposition B10).1 ≠ (qr_decomposition B10).2.R :=
  ⟨fun _ => rfl, by decide, by decide⟩

end Kornia
